import Mathlib

/-!
Shallow embedding of the revenue-analysis pipeline
(`src/revenue_analysis.py`, `src/detailed_rev.py`).

Modelling conventions:
* a pandas DataFrame is a `List` of structure rows, in row order;
* a pandas `NaN` cell is `Option.none`;
* numeric cells are `ℚ` (the claims about conversion are exact products);
* `pd.to_datetime` is modelled on ISO `YYYY-MM-DD` strings, a calendar date
  being encoded as the natural number `y*10000 + m*100 + d`; an unparseable
  date makes the whole column conversion fail (`none`), as `pd.to_datetime`
  raises on a column containing an unparseable entry;
* in-place column assignment on an argument DataFrame is modelled as explicit
  state passing: `convert_currency` returns the updated revenue table and the
  updated rate table alongside the fresh merged table it builds;
* `groupby` output lists one row per distinct group key; the model lists group
  keys in `List.dedup` order while pandas sorts them — only the output row
  order differs, which no property below depends on; rows whose group key is
  `NaN` are dropped, as by pandas' default `dropna=True`.
-/

namespace RevenueAnalysis

/-- A row of the team directory (`teams.csv`) before currency assignment. -/
structure TeamRow where
  ID : ℤ
  Name : String
  Email : String
  Rep_Or_Director : String
  Status : String
  Region : String
  Team : String
  Country : String
deriving DecidableEq, Repr

/-- A team row after `get_currency_code` has attached the `Currency` column. -/
structure TeamRowC where
  ID : ℤ
  Name : String
  Email : String
  Rep_Or_Director : String
  Status : String
  Region : String
  Team : String
  Country : String
  Currency : String
deriving DecidableEq, Repr

/-- The nested `np.where` cascade of `get_currency_code`
(`src/revenue_analysis.py:74-94`), evaluated on one country value: the
branches are tried outermost first, and the innermost default is `'EUR'`. -/
def currencyOfCountry (country : String) : String :=
  if country = "US" then "USD"
  else if country = "Japan" then "JPY"
  else if country = "Netherlands" ∨ country = "Spain" then "EUR"
  else if country = "Australia" then "AUD"
  else if country = "UK" then "GBP"
  else if country = "Brazil" then "BRL"
  else if country = "Canada" then "CAD"
  else if country = "India" then "INR"
  else if country = "Mexico" then "MXN"
  else if country = "Singapore" then "SGD"
  else "EUR"

/-- Model of `get_currency_code` (`src/revenue_analysis.py:44-96`): writes a
`Currency` column computed from `Country` onto the teams table, leaving every
other column unchanged; the updated table is returned (state passing for the
in-place assignment `teams_df['Currency'] = np.where(...)`). -/
def get_currency_code (teams_df : List TeamRow) : List TeamRowC :=
  teams_df.map fun t =>
    ⟨t.ID, t.Name, t.Email, t.Rep_Or_Director, t.Status, t.Region, t.Team,
      t.Country, currencyOfCountry t.Country⟩

/-- A raw revenue row (`revenue.csv`): `UserID`, a raw date string, and a
numeric revenue amount. -/
structure RevRow where
  UserID : ℤ
  Date : String
  Revenue : ℚ
deriving DecidableEq, Repr

/-- One output row of `get_team`: the revenue row together with the matched
team row, or `none` when no team row matched (pandas fills every team-side
column of such a row with `NaN`). -/
structure JoinedRow where
  rev : RevRow
  team : Option TeamRowC
deriving DecidableEq, Repr

/-- The team rows matching one revenue row's `UserID` in the left merge of
`get_team` (`left_on='UserID', right_on='ID'`). -/
def teamMatches (teams_df : List TeamRowC) (r : RevRow) : List TeamRowC :=
  teams_df.filter fun t => decide (t.ID = r.UserID)

/-- One revenue row's contribution to the left merge of `get_team`: one output
row per matching team row, or a single row with `NaN` team-side columns. -/
def joinBranch (teams_df : List TeamRowC) (r : RevRow) : List JoinedRow :=
  match teamMatches teams_df r with
  | [] => [⟨r, none⟩]
  | ms => ms.map fun t => ⟨r, some t⟩

/-- Model of `get_team` (`src/revenue_analysis.py:149-188`):
`pd.merge(revenue_df, teams_df, how='left', left_on='UserID', right_on='ID')`.
Each revenue row is kept; it fans out into one output row per team row whose
`ID` equals its `UserID`, and is paired with `none` when there is no match. -/
def get_team (revenue_df : List RevRow) (teams_df : List TeamRowC) : List JoinedRow :=
  revenue_df.flatMap (joinBranch teams_df)

/-- Split a character list at the dash separators, the string splitting the
ISO-date parse of `pd.to_datetime` performs. -/
def splitOnDash : List Char → List (List Char)
  | [] => [[]]
  | c :: rest =>
    if c = '-' then [] :: splitOnDash rest
    else
      match splitOnDash rest with
      | [] => [[c]]
      | g :: gs => (c :: g) :: gs

/-- Accumulate decimal digits into a number; a non-digit character fails. -/
def digitsToNatAux : List Char → ℕ → Option ℕ
  | [], acc => some acc
  | c :: rest, acc =>
    if c.isDigit then digitsToNatAux rest (acc * 10 + (c.toNat - 48)) else none

/-- Parse a non-empty, all-digit character list as a decimal number. -/
def digitsToNat? (cs : List Char) : Option ℕ :=
  match cs with
  | [] => none
  | _ => digitsToNatAux cs 0

/-- Model of `pd.to_datetime` on one cell, restricted to ISO `YYYY-MM-DD`
strings; the date is encoded as `y*10000 + m*100 + d`, so equality of encoded
dates is equality of calendar dates. Anything unparseable yields `none`
(pandas raises). -/
def to_datetime (s : String) : Option ℕ :=
  match (splitOnDash s.toList).map digitsToNat? with
  | [some y, some m, some d] =>
    if 1 ≤ m ∧ m ≤ 12 ∧ 1 ≤ d ∧ d ≤ 31 then some (y * 10000 + m * 100 + d)
    else none
  | _ => none

/-- Model of `.astype(float)` on the numeric `Revenue` column: numeric cells
are already modelled as `ℚ`, on which the cast is the identity. -/
def astype_float (x : ℚ) : ℚ := x

/-- A revenue row of `convert_currency`'s input after its first three
statements ran: `Date` parsed to a calendar date, `Revenue` cast to float. -/
structure JoinedRowP where
  UserID : ℤ
  Date : ℕ
  Revenue : ℚ
  team : Option TeamRowC
deriving DecidableEq, Repr

/-- Parse one joined revenue row: `pd.to_datetime` on `Date` and
`.astype(float)` on `Revenue` (`src/revenue_analysis.py:138,140`). -/
def parseJoined (j : JoinedRow) : Option JoinedRowP :=
  (to_datetime j.rev.Date).map fun d =>
    ⟨j.rev.UserID, d, astype_float j.rev.Revenue, j.team⟩

/-- A raw exchange-rate row (`currency.csv`). -/
structure RateRow where
  FROM_CURRENCY : String
  DATE : String
  EXCHANGE_RATE : ℚ
deriving DecidableEq, Repr

/-- An exchange-rate row after `pd.to_datetime` on its `DATE` column. -/
structure RateRowP where
  FROM_CURRENCY : String
  DATE : ℕ
  EXCHANGE_RATE : ℚ
deriving DecidableEq, Repr

/-- Parse one rate row: `pd.to_datetime` on `DATE`
(`src/revenue_analysis.py:139`). -/
def parseRate (c : RateRow) : Option RateRowP :=
  (to_datetime c.DATE).map fun d => ⟨c.FROM_CURRENCY, d, c.EXCHANGE_RATE⟩

/-- Apply a cell parser to a whole column: all cells parse, or the column
conversion fails (as a raising `pd.to_datetime` call does). -/
def parseAll (f : α → Option β) : List α → Option (List β)
  | [] => some []
  | a :: l =>
    match f a, parseAll f l with
    | some b, some l' => some (b :: l')
    | _, _ => none

/-- The `Currency` cell of a revenue row after the team join: the matched
team's currency, or `NaN` when the team join found no match. -/
def rowCurrency (j : JoinedRowP) : Option String := j.team.map fun t => t.Currency

/-- One output row of `convert_currency`'s merge: the revenue-side row, the
matched rate row (or `none`), and the computed `Revenue_USD` cell. -/
structure ConvRow where
  left : JoinedRowP
  rate : Option RateRowP
  Revenue_USD : Option ℚ
deriving DecidableEq, Repr

/-- The `np.where(new_df['Currency']=='USD', Revenue, Revenue * EXCHANGE_RATE)`
cell computation (`src/revenue_analysis.py:144`). A `NaN` `Currency` compares
unequal to `'USD'`, and a product with a `NaN` rate is `NaN`. -/
def revUSD (j : JoinedRowP) (c : Option RateRowP) : Option ℚ :=
  if rowCurrency j = some "USD" then some j.Revenue
  else c.map fun cr => j.Revenue * cr.EXCHANGE_RATE

/-- The rate rows matching a revenue row's `(Currency, Date)` key in the merge
`left_on=['Currency','Date'], right_on=['FROM_CURRENCY','DATE']`. A `NaN`
`Currency` matches no rate row, the rate table's keys being present values. -/
def rateMatches (currency_df : List RateRowP) (j : JoinedRowP) : List RateRowP :=
  currency_df.filter fun c =>
    decide (rowCurrency j = some c.FROM_CURRENCY ∧ j.Date = c.DATE)

/-- One revenue row's contribution to the rate-side left merge: one output row
per matching rate row, or a single row with a `NaN` rate side. -/
def convertBranch (currency_df : List RateRowP) (j : JoinedRowP) : List ConvRow :=
  match rateMatches currency_df j with
  | [] => [⟨j, none, revUSD j none⟩]
  | ms => ms.map fun c => ⟨j, some c, revUSD j (some c)⟩

/-- The left merge of `convert_currency` (`src/revenue_analysis.py:141`)
followed by the `Revenue_USD` computation (line 144): every revenue row is
kept, fanning out one output row per matching rate row, with `none` on the
rate side when nothing matched. -/
def convertMerge (revenue_df : List JoinedRowP) (currency_df : List RateRowP) :
    List ConvRow :=
  revenue_df.flatMap (convertBranch currency_df)

/-- Model of `convert_currency` (`src/revenue_analysis.py:99-146`). It first
overwrites, on its argument tables, the revenue `Date` and `Revenue` columns
and the rate `DATE` column (lines 138-140) — returned here as the first two
components — and then builds and returns the new merged table with the
`Revenue_USD` column. `none` models a raising `pd.to_datetime`. -/
def convert_currency (revenue_df : List JoinedRow) (currency_df : List RateRow) :
    Option (List JoinedRowP × List RateRowP × List ConvRow) :=
  match parseAll parseJoined revenue_df, parseAll parseRate currency_df with
  | some rev, some rat => some (rev, rat, convertMerge rev rat)
  | _, _ => none

/-- Sum of a `Revenue_USD` column as pandas `'sum'` aggregation computes it:
`NaN` cells are skipped, i.e. contribute `0`, and an all-`NaN` group sums to
`0.0` (default `min_count=0`). -/
def sumRevUSD (l : List ConvRow) : ℚ := (l.map fun r => r.Revenue_USD.getD 0).sum

/-- The team-side `ID` cell of a merged revenue row (`NaN` when the team join
found no match). -/
def convID (r : ConvRow) : Option ℤ := r.left.team.map fun t => t.ID

/-- The `['ID','Date']` group key of `get_quarterly_rev`; `none` when the key
contains a `NaN`, in which case pandas `groupby` drops the row. -/
def qKey (r : ConvRow) : Option (ℤ × ℕ) := (convID r).map fun i => (i, r.left.Date)

/-- One output row of `get_quarterly_rev`. -/
structure QRow where
  ID : ℤ
  Date : ℕ
  Email : Option String
  Name : Option String
  Team : Option String
  Revenue_USD : ℚ
deriving DecidableEq, Repr

/-- Model of `get_quarterly_rev` (`src/revenue_analysis.py:191-228`):
`groupby(['ID','Date'], as_index=False).agg({'Email':'first', 'Name':'first',
'Team':'first', 'Revenue_USD':'sum'})`. Rows with a `NaN` key are dropped;
`'first'` takes the first non-`NaN` value of the group; `'sum'` skips `NaN`. -/
def get_quarterly_rev (revenue_df : List ConvRow) : List QRow :=
  ((revenue_df.filterMap qKey).dedup).map fun k =>
    let g := revenue_df.filter fun r => decide (qKey r = some k)
    ⟨k.1, k.2,
      g.findSome? fun r => r.left.team.map fun t => t.Email,
      g.findSome? fun r => r.left.team.map fun t => t.Name,
      g.findSome? fun r => r.left.team.map fun t => t.Team,
      sumRevUSD g⟩

/-- The `.dt.to_period('M')` computation on an encoded date
`y*10000 + m*100 + d`: the month period is the prefix `y*100 + m`. -/
def to_period_M (d : ℕ) : ℕ := d / 100

/-- One output row of `get_total_monthly_revenue`. -/
structure MRow where
  Month : ℕ
  Revenue_USD : ℚ
deriving DecidableEq, Repr

/-- Model of `get_total_monthly_revenue` (`src/revenue_analysis.py:232-243`):
group by the calendar month of `Date` and sum `Revenue_USD` (skipping `NaN`). -/
def get_total_monthly_revenue (df : List ConvRow) : List MRow :=
  ((df.map fun r => to_period_M r.left.Date).dedup).map fun m =>
    ⟨m, sumRevUSD (df.filter fun r => decide (to_period_M r.left.Date = m))⟩

/-- One output row of `sales_rev`'s final `groupby(['UserID']).agg(...)`. -/
structure SRow where
  UserID : ℤ
  Email : Option String
  Name : Option String
  Rep_Or_Director : Option String
  Status : Option String
  Region : Option String
  Team : Option String
  Country : Option String
  Currency : Option String
  Revenue_USD : ℚ
deriving DecidableEq, Repr

/-- The aggregation step of `sales_rev` (`src/detailed_rev.py:32-34`):
`groupby(['UserID']).agg({...'first'..., 'Revenue_USD':'sum'})`. `UserID`
comes from the revenue side and is never `NaN`, so no row is dropped. -/
def salesAgg (df : List ConvRow) : List SRow :=
  ((df.map fun r => r.left.UserID).dedup).map fun u =>
    let g := df.filter fun r => decide (r.left.UserID = u)
    ⟨u,
      g.findSome? fun r => r.left.team.map fun t => t.Email,
      g.findSome? fun r => r.left.team.map fun t => t.Name,
      g.findSome? fun r => r.left.team.map fun t => t.Rep_Or_Director,
      g.findSome? fun r => r.left.team.map fun t => t.Status,
      g.findSome? fun r => r.left.team.map fun t => t.Region,
      g.findSome? fun r => r.left.team.map fun t => t.Team,
      g.findSome? fun r => r.left.team.map fun t => t.Country,
      g.findSome? fun r => r.left.team.map fun t => t.Currency,
      sumRevUSD g⟩

/-- Model of `sales_rev` (`src/detailed_rev.py:11-37`): filter the sales table
to the given user ids, attach currencies to the teams table, left-join teams,
convert to USD against the rate table, and aggregate per `UserID`. -/
def sales_rev (sales_id : List ℤ) (sales_df : List RevRow) (teams_df : List TeamRow)
    (currency_df : List RateRow) : Option (List SRow) :=
  let filtered_sales := sales_df.filter fun r => decide (r.UserID ∈ sales_id)
  let joined := get_team filtered_sales (get_currency_code teams_df)
  match convert_currency joined currency_df with
  | some (_, _, conv) => some (salesAgg conv)
  | none => none

/-- The pure gate of `export_to_csv` (`src/revenue_analysis.py:261-262`):
an empty table raises `ValueError` before any file is touched; a non-empty
table proceeds to the write (the write itself is collaborator I/O). -/
def export_to_csv (df : List α) : Except String Unit :=
  if df.isEmpty then
    Except.error "The DataFrame is empty and cannot be exported."
  else Except.ok ()

/-! Helper lemmas shared by the claim theorems. -/

theorem parseAll_forall₂ {α β : Type} {f : α → Option β} {l : List α} {l' : List β}
    (h : parseAll f l = some l') : List.Forall₂ (fun a b => f a = some b) l l' := by
  induction l generalizing l' with
  | nil =>
    simp only [parseAll, Option.some.injEq] at h
    subst h
    exact List.Forall₂.nil
  | cons a t ih =>
    rw [parseAll] at h
    cases hfa : f a with
    | none => rw [hfa] at h; simp at h
    | some b =>
      cases hpt : parseAll f t with
      | none => rw [hfa, hpt] at h; simp at h
      | some t' =>
        rw [hfa, hpt] at h
        simp only [Option.some.injEq] at h
        subst h
        exact List.Forall₂.cons hfa (ih hpt)

theorem forall₂_mem_left {α β : Type} {R : α → β → Prop} {l : List α} {l' : List β}
    (h : List.Forall₂ R l l') : ∀ a ∈ l, ∃ b ∈ l', R a b := by
  induction h with
  | nil => intro a ha; simp at ha
  | cons hr _ ih =>
    intro a ha
    rcases List.mem_cons.1 ha with rfl | ha
    · exact ⟨_, List.mem_cons_self _ _, hr⟩
    · rcases ih a ha with ⟨b, hb, hrb⟩
      exact ⟨b, List.mem_cons_of_mem _ hb, hrb⟩

theorem joinBranch_ne_nil (teams_df : List TeamRowC) (r : RevRow) :
    joinBranch teams_df r ≠ [] := by
  unfold joinBranch
  cases h : teamMatches teams_df r with
  | nil => simp
  | cons t ts => simp

theorem joinBranch_length (teams_df : List TeamRowC) (r : RevRow) :
    (joinBranch teams_df r).length = max 1 (teamMatches teams_df r).length := by
  unfold joinBranch
  cases h : teamMatches teams_df r with
  | nil => simp
  | cons t ts => simp [Nat.max_eq_right (Nat.succ_le_succ (Nat.zero_le _))]

theorem joinBranch_rev {teams_df : List TeamRowC} {r : RevRow} {x : JoinedRow}
    (hx : x ∈ joinBranch teams_df r) : x.rev = r := by
  unfold joinBranch at hx
  cases h : teamMatches teams_df r with
  | nil => rw [h] at hx; simp at hx; subst hx; rfl
  | cons t ts =>
    rw [h] at hx
    rcases List.mem_map.1 hx with ⟨u, _, rfl⟩
    rfl

theorem joinBranch_exists (teams_df : List TeamRowC) (r : RevRow) :
    ∃ x ∈ joinBranch teams_df r, x.rev = r ∧
      (x.team = none ↔ teamMatches teams_df r = []) := by
  unfold joinBranch
  cases h : teamMatches teams_df r with
  | nil => exact ⟨⟨r, none⟩, by simp, rfl, by simp [h]⟩
  | cons t ts =>
    refine ⟨⟨r, some t⟩, ?_, rfl, ?_⟩
    · exact List.mem_map.2 ⟨t, List.mem_cons_self _ _, rfl⟩
    · simp [h]

theorem mem_joinBranch_none {teams_df : List TeamRowC} {r : RevRow}
    (h : teamMatches teams_df r = []) : (⟨r, none⟩ : JoinedRow) ∈ joinBranch teams_df r := by
  unfold joinBranch
  rw [h]
  simp

theorem mem_joinBranch_some {teams_df : List TeamRowC} {r : RevRow} {t : TeamRowC}
    (h : t ∈ teamMatches teams_df r) :
    (⟨r, some t⟩ : JoinedRow) ∈ joinBranch teams_df r := by
  unfold joinBranch
  cases hm : teamMatches teams_df r with
  | nil => rw [hm] at h; simp at h
  | cons u us => exact List.mem_map.2 ⟨t, hm ▸ h, rfl⟩

theorem convertBranch_exists (currency_df : List RateRowP) (j : JoinedRowP) :
    ∃ out ∈ convertBranch currency_df j, out.left = j ∧
      (out.rate = none ↔ rateMatches currency_df j = []) := by
  unfold convertBranch
  cases h : rateMatches currency_df j with
  | nil => exact ⟨⟨j, none, revUSD j none⟩, by simp, rfl, by simp [h]⟩
  | cons c cs =>
    refine ⟨⟨j, some c, revUSD j (some c)⟩, ?_, rfl, ?_⟩
    · exact List.mem_map.2 ⟨c, List.mem_cons_self _ _, rfl⟩
    · simp [h]

theorem mem_convertBranch_none {currency_df : List RateRowP} {j : JoinedRowP}
    (h : rateMatches currency_df j = []) :
    (⟨j, none, revUSD j none⟩ : ConvRow) ∈ convertBranch currency_df j := by
  unfold convertBranch
  rw [h]
  simp

theorem mem_convertBranch {currency_df : List RateRowP} {j : JoinedRowP} {out : ConvRow}
    (hx : out ∈ convertBranch currency_df j) :
    out.left = j ∧
      ((out.rate = none ∧ rateMatches currency_df j = [] ∧
          out.Revenue_USD = revUSD j none) ∨
        (∃ c ∈ rateMatches currency_df j, out.rate = some c ∧
          out.Revenue_USD = revUSD j (some c))) := by
  unfold convertBranch at hx
  cases h : rateMatches currency_df j with
  | nil =>
    rw [h] at hx
    simp only [List.mem_singleton] at hx
    subst hx
    exact ⟨rfl, Or.inl ⟨rfl, rfl, rfl⟩⟩
  | cons c cs =>
    rw [h] at hx
    rcases List.mem_map.1 hx with ⟨u, hu, rfl⟩
    exact ⟨rfl, Or.inr ⟨u, h ▸ hu, rfl, rfl⟩⟩

theorem convert_currency_eq_some {revenue_df : List JoinedRow} {currency_df : List RateRow}
    {rev : List JoinedRowP} {rat : List RateRowP} {conv : List ConvRow}
    (h : convert_currency revenue_df currency_df = some (rev, rat, conv)) :
    parseAll parseJoined revenue_df = some rev ∧
      parseAll parseRate currency_df = some rat ∧ conv = convertMerge rev rat := by
  unfold convert_currency at h
  cases h1 : parseAll parseJoined revenue_df with
  | none => rw [h1] at h; simp at h
  | some a =>
    cases h2 : parseAll parseRate currency_df with
    | none => rw [h1, h2] at h; simp at h
    | some b =>
      rw [h1, h2] at h
      simp only [Option.some.injEq, Prod.mk.injEq] at h
      obtain ⟨ha, hb, hc⟩ := h
      subst ha
      subst hb
      exact ⟨rfl, rfl, hc.symm⟩

theorem parseJoined_eq_some {j : JoinedRow} {jp : JoinedRowP}
    (h : parseJoined j = some jp) :
    jp.UserID = j.rev.UserID ∧ jp.team = j.team ∧
      to_datetime j.rev.Date = some jp.Date ∧ jp.Revenue = astype_float j.rev.Revenue := by
  unfold parseJoined at h
  cases hd : to_datetime j.rev.Date with
  | none => rw [hd] at h; simp at h
  | some d =>
    rw [hd] at h
    simp only [Option.map_some', Option.some.injEq] at h
    subst h
    exact ⟨rfl, rfl, rfl, rfl⟩

theorem parseRate_eq_some {c : RateRow} {cp : RateRowP}
    (h : parseRate c = some cp) :
    cp.FROM_CURRENCY = c.FROM_CURRENCY ∧ to_datetime c.DATE = some cp.DATE ∧
      cp.EXCHANGE_RATE = c.EXCHANGE_RATE := by
  unfold parseRate at h
  cases hd : to_datetime c.DATE with
  | none => rw [hd] at h; simp at h
  | some d =>
    rw [hd] at h
    simp only [Option.map_some', Option.some.injEq] at h
    subst h
    exact ⟨rfl, rfl, rfl⟩

theorem rateMatches_of_currency_none {currency_df : List RateRowP} {j : JoinedRowP}
    (h : rowCurrency j = none) : rateMatches currency_df j = [] := by
  unfold rateMatches
  rw [List.filter_eq_nil_iff]
  intro c _
  simp [h]

theorem get_team_nil (teams_df : List TeamRowC) : get_team [] teams_df = [] := rfl

theorem get_team_cons (r : RevRow) (l : List RevRow) (teams_df : List TeamRowC) :
    get_team (r :: l) teams_df = joinBranch teams_df r ++ get_team l teams_df := by
  simp [get_team]

theorem get_team_length (revenue_df : List RevRow) (teams_df : List TeamRowC) :
    (get_team revenue_df teams_df).length =
      (revenue_df.map fun r => max 1 (teamMatches teams_df r).length).sum := by
  induction revenue_df with
  | nil => rfl
  | cons r l ih =>
    rw [get_team_cons, List.length_append, joinBranch_length, ih]
    simp

theorem get_team_length_ge (revenue_df : List RevRow) (teams_df : List TeamRowC) :
    revenue_df.length ≤ (get_team revenue_df teams_df).length := by
  induction revenue_df with
  | nil => simp [get_team_nil]
  | cons r l ih =>
    rw [get_team_cons, List.length_append]
    have h1 : 1 ≤ (joinBranch teams_df r).length :=
      List.length_pos.2 (joinBranch_ne_nil teams_df r)
    simp only [List.length_cons]
    omega

theorem get_team_length_eq_iff (revenue_df : List RevRow) (teams_df : List TeamRowC) :
    (get_team revenue_df teams_df).length = revenue_df.length ↔
      ∀ r ∈ revenue_df, (teamMatches teams_df r).length ≤ 1 := by
  induction revenue_df with
  | nil => simp [get_team_nil]
  | cons r l ih =>
    rw [get_team_cons, List.length_append, joinBranch_length]
    have hge := get_team_length_ge l teams_df
    constructor
    · intro h x hx
      have hb1 : max 1 (teamMatches teams_df r).length = 1 := by
        simp only [List.length_cons] at h
        omega
      have hrest : (get_team l teams_df).length = l.length := by
        simp only [List.length_cons] at h
        omega
      rcases List.mem_cons.1 hx with rfl | hx
      · omega
      · exact ih.1 hrest x hx
    · intro h
      have h1 : (teamMatches teams_df r).length ≤ 1 := h r (List.mem_cons_self _ _)
      have h2 : (get_team l teams_df).length = l.length :=
        ih.2 fun x hx => h x (List.mem_cons_of_mem _ hx)
      simp only [List.length_cons]
      omega

theorem mem_get_team {revenue_df : List RevRow} {teams_df : List TeamRowC} {r : RevRow}
    (h : r ∈ revenue_df) :
    ∃ x ∈ get_team revenue_df teams_df, x.rev = r ∧
      (x.team = none ↔ teamMatches teams_df r = []) := by
  rcases joinBranch_exists teams_df r with ⟨x, hx, hrev, hiff⟩
  exact ⟨x, List.mem_flatMap.2 ⟨r, h, hx⟩, hrev, hiff⟩

/-! Claim theorems and their witnesses. -/

/-- C2. For every team record, `get_currency_code` assigns the `Currency`
field by the fixed first-match-wins table (US→USD, Japan→JPY,
Netherlands/Spain→EUR, Australia→AUD, UK→GBP, Brazil→BRL, Canada→CAD,
India→INR, Mexico→MXN, Singapore→SGD), and every country outside the table
gets `"EUR"`; no error is raised (the assignment is a total function). -/
theorem claim_C2 (teams_df : List TeamRow) :
    (∀ tc ∈ get_currency_code teams_df, tc.Currency = currencyOfCountry tc.Country) ∧
    currencyOfCountry "US" = "USD" ∧ currencyOfCountry "Japan" = "JPY" ∧
    currencyOfCountry "Netherlands" = "EUR" ∧ currencyOfCountry "Spain" = "EUR" ∧
    currencyOfCountry "Australia" = "AUD" ∧ currencyOfCountry "UK" = "GBP" ∧
    currencyOfCountry "Brazil" = "BRL" ∧ currencyOfCountry "Canada" = "CAD" ∧
    currencyOfCountry "India" = "INR" ∧ currencyOfCountry "Mexico" = "MXN" ∧
    currencyOfCountry "Singapore" = "SGD" ∧
    (∀ c : String, c ∉ ["US", "Japan", "Netherlands", "Spain", "Australia", "UK",
        "Brazil", "Canada", "India", "Mexico", "Singapore"] →
      currencyOfCountry c = "EUR") := by
  refine ⟨?_, rfl, rfl, rfl, rfl, rfl, rfl, rfl, rfl, rfl, rfl, rfl, ?_⟩
  · intro tc htc
    rcases List.mem_map.1 htc with ⟨t, _, rfl⟩
    rfl
  · intro c hc
    simp only [List.mem_cons, List.not_mem_nil, or_false, not_or] at hc
    obtain ⟨h1, h2, h3, h4, h5, h6, h7, h8, h9, h10, h11⟩ := hc
    simp [currencyOfCountry, h1, h2, h3, h4, h5, h6, h7, h8, h9, h10, h11]

/-- C3. The `get_team` left join: output row count is at least the revenue
row count, with equality exactly when no revenue row's `UserID` matches more
than one team record; the output length is the sum over revenue rows of
`max 1 (match count)` (one output row per team match); every revenue row
appears in the output at least once; each team match produces its own output
row; and an unmatched revenue row appears with all team-side fields missing. -/
theorem claim_C3 (revenue_df : List RevRow) (teams_df : List TeamRowC) :
    revenue_df.length ≤ (get_team revenue_df teams_df).length ∧
    ((get_team revenue_df teams_df).length = revenue_df.length ↔
      ∀ r ∈ revenue_df, (teamMatches teams_df r).length ≤ 1) ∧
    (get_team revenue_df teams_df).length =
      (revenue_df.map fun r => max 1 (teamMatches teams_df r).length).sum ∧
    (∀ r ∈ revenue_df, ∃ x ∈ get_team revenue_df teams_df, x.rev = r) ∧
    (∀ r ∈ revenue_df, ∀ t ∈ teamMatches teams_df r,
      (⟨r, some t⟩ : JoinedRow) ∈ get_team revenue_df teams_df) ∧
    (∀ r ∈ revenue_df, teamMatches teams_df r = [] →
      (⟨r, none⟩ : JoinedRow) ∈ get_team revenue_df teams_df) := by
  refine ⟨get_team_length_ge _ _, get_team_length_eq_iff _ _, get_team_length _ _,
    ?_, ?_, ?_⟩
  · intro r hr
    rcases @mem_get_team revenue_df teams_df r hr with ⟨x, hx, hrev, _⟩
    exact ⟨x, hx, hrev⟩
  · intro r hr t ht
    exact List.mem_flatMap.2 ⟨r, hr, mem_joinBranch_some ht⟩
  · intro r hr hnone
    exact List.mem_flatMap.2 ⟨r, hr, mem_joinBranch_none hnone⟩

/-- C1. For every record in the table produced by `convert_currency`: a
`Currency` equal to `"USD"` gives `Revenue_USD = Revenue` exactly; otherwise,
a unique matching rate row gives `Revenue_USD = Revenue * EXCHANGE_RATE`
exactly; and no matching rate row gives a missing `Revenue_USD` — not zero —
while the record is still produced rather than raising. -/
theorem claim_C1 (revenue_df : List JoinedRow) (currency_df : List RateRow)
    (rev : List JoinedRowP) (rat : List RateRowP) (conv : List ConvRow)
    (h : convert_currency revenue_df currency_df = some (rev, rat, conv)) :
    ∀ out ∈ conv,
      (rowCurrency out.left = some "USD" → out.Revenue_USD = some out.left.Revenue) ∧
      (rowCurrency out.left ≠ some "USD" →
        (∀ c, rateMatches rat out.left = [c] →
          out.Revenue_USD = some (out.left.Revenue * c.EXCHANGE_RATE)) ∧
        (rateMatches rat out.left = [] →
          out.Revenue_USD = none ∧ out.Revenue_USD ≠ some 0)) := by
  obtain ⟨hrev, hrat, hconv⟩ := convert_currency_eq_some h
  subst hconv
  intro out hout
  rcases List.mem_flatMap.1 hout with ⟨j, _, hbr⟩
  obtain ⟨hleft, hcases⟩ := mem_convertBranch hbr
  subst hleft
  constructor
  · intro hUSD
    rcases hcases with ⟨_, _, hR⟩ | ⟨c, _, _, hR⟩ <;> rw [hR] <;> simp [revUSD, hUSD]
  · intro hne
    constructor
    · intro c hc
      rcases hcases with ⟨_, hm, _⟩ | ⟨c', hc', _, hR⟩
      · rw [hm] at hc
        exact absurd hc (by simp)
      · have hcc : c' = c := by
          rw [hc] at hc'
          simpa using hc'
        subst hcc
        rw [hR]
        simp [revUSD, hne]
    · intro hnil
      rcases hcases with ⟨_, _, hR⟩ | ⟨c', hc', _, _⟩
      · rw [hR]
        exact ⟨by simp [revUSD, hne], by simp [revUSD, hne]⟩
      · rw [hnil] at hc'
        simp at hc'

/-- C4. Neither `get_team` nor `convert_currency` drops a revenue record:
every input revenue row yields at least one output row carrying it, and on a
failed match only the team side (`get_team`) or the rate side and the
converted value (`convert_currency`) is missing, the carried row itself being
preserved unchanged. -/
theorem claim_C4 :
    (∀ (revenue_df : List RevRow) (teams_df : List TeamRowC), ∀ r ∈ revenue_df,
      ∃ x ∈ get_team revenue_df teams_df, x.rev = r ∧
        (x.team = none ↔ teamMatches teams_df r = [])) ∧
    (∀ (revenue_df : List JoinedRow) (currency_df : List RateRow)
        (rev : List JoinedRowP) (rat : List RateRowP) (conv : List ConvRow),
      convert_currency revenue_df currency_df = some (rev, rat, conv) →
      ∀ j ∈ revenue_df, ∃ jp, parseJoined j = some jp ∧ jp ∈ rev ∧
        ∃ out ∈ conv, out.left = jp ∧ (out.rate = none ↔ rateMatches rat jp = [])) := by
  constructor
  · intro revenue_df teams_df r hr
    exact mem_get_team hr
  · intro revenue_df currency_df rev rat conv h j hj
    obtain ⟨hrev, hrat, hconv⟩ := convert_currency_eq_some h
    obtain ⟨jp, hjpmem, hjp⟩ := forall₂_mem_left (parseAll_forall₂ hrev) j hj
    obtain ⟨out, hout, hleft, hiff⟩ := convertBranch_exists rat jp
    subst hconv
    exact ⟨jp, hjp, hjpmem, out, List.mem_flatMap.2 ⟨jp, hjpmem, hout⟩, hleft, hiff⟩

/-- C7. `export_to_csv` signals `ValueError` exactly on an empty table, while
every upstream transformation stage, applied to an empty or unmatched table,
returns an (empty) table instead of raising. -/
theorem claim_C7 {α : Type} (df : List α) (teams_df : List TeamRowC)
    (currency_df : List RateRow) (rat : List RateRowP)
    (hrat : parseAll parseRate currency_df = some rat) :
    ((∃ e, export_to_csv df = Except.error e) ↔ df = []) ∧
    get_currency_code [] = [] ∧
    get_team [] teams_df = [] ∧
    convert_currency [] currency_df = some ([], rat, []) ∧
    get_quarterly_rev [] = [] ∧
    get_total_monthly_revenue [] = [] ∧
    salesAgg [] = [] := by
  refine ⟨?_, rfl, rfl, ?_, rfl, rfl, rfl⟩
  · cases df with
    | nil => exact iff_of_true ⟨_, rfl⟩ rfl
    | cons a l => simp [export_to_csv]
  · unfold convert_currency
    rw [hrat]
    rfl

/-- C8. A revenue row whose `UserID` matches no team record goes through the
pipeline with a missing `Currency`: that missing `Currency` is not `"USD"`,
the rate merge finds no matching rate row for it, and `convert_currency`
yields a row for it with a missing rate side and a missing `Revenue_USD`. -/
theorem claim_C8 (revenue_df : List RevRow) (teams_df : List TeamRowC)
    (currency_df : List RateRow) (rev : List JoinedRowP) (rat : List RateRowP)
    (conv : List ConvRow)
    (h : convert_currency (get_team revenue_df teams_df) currency_df = some (rev, rat, conv)) :
    ∀ r ∈ revenue_df, teamMatches teams_df r = [] →
      ∃ out ∈ conv, out.left.UserID = r.UserID ∧ out.left.team = none ∧
        rowCurrency out.left = none ∧ rowCurrency out.left ≠ some "USD" ∧
        rateMatches rat out.left = [] ∧ out.rate = none ∧ out.Revenue_USD = none := by
  obtain ⟨hrev, hrat, hconv⟩ := convert_currency_eq_some h
  intro r hr hnone
  have hj : (⟨r, none⟩ : JoinedRow) ∈ get_team revenue_df teams_df :=
    List.mem_flatMap.2 ⟨r, hr, mem_joinBranch_none hnone⟩
  obtain ⟨jp, hjpmem, hjp⟩ := forall₂_mem_left (parseAll_forall₂ hrev) _ hj
  obtain ⟨hUser, hteam, _, _⟩ := parseJoined_eq_some hjp
  have hcur : rowCurrency jp = none := by simp [rowCurrency, hteam]
  have hmatch : rateMatches rat jp = [] := rateMatches_of_currency_none hcur
  refine ⟨⟨jp, none, revUSD jp none⟩, ?_, hUser, hteam, hcur, ?_, hmatch, rfl, ?_⟩
  · subst hconv
    exact List.mem_flatMap.2 ⟨jp, hjpmem, mem_convertBranch_none hmatch⟩
  · simp [hcur]
  · simp [revUSD, hcur]

theorem sumRevUSD_perm {l₁ l₂ : List ConvRow} (h : l₁.Perm l₂) :
    sumRevUSD l₁ = sumRevUSD l₂ :=
  List.Perm.sum_eq (h.map _)

theorem sumRevUSD_eq_filterMap (l : List ConvRow) :
    sumRevUSD l = (l.filterMap fun r => r.Revenue_USD).sum := by
  induction l with
  | nil => rfl
  | cons r t ih =>
    unfold sumRevUSD at *
    cases h : r.Revenue_USD with
    | none => simp [List.filterMap_cons, h, ih]
    | some q => simp [List.filterMap_cons, h, ih]

theorem mem_get_quarterly_rev {df : List ConvRow} {g : QRow}
    (h : g ∈ get_quarterly_rev df) :
    g.Revenue_USD =
      sumRevUSD (df.filter fun r => decide (qKey r = some (g.ID, g.Date))) := by
  unfold get_quarterly_rev at h
  rcases List.mem_map.1 h with ⟨k, _, rfl⟩
  rfl

theorem mem_get_total_monthly_revenue {df : List ConvRow} {m : MRow}
    (h : m ∈ get_total_monthly_revenue df) :
    m.Revenue_USD =
      sumRevUSD (df.filter fun r => decide (to_period_M r.left.Date = m.Month)) := by
  unfold get_total_monthly_revenue at h
  rcases List.mem_map.1 h with ⟨mo, _, rfl⟩
  rfl

theorem mem_salesAgg {df : List ConvRow} {s : SRow} (h : s ∈ salesAgg df) :
    s.Revenue_USD = sumRevUSD (df.filter fun r => decide (r.left.UserID = s.UserID)) := by
  unfold salesAgg at h
  rcases List.mem_map.1 h with ⟨u, _, rfl⟩
  rfl

theorem filterMap_qKey_filter (df : List ConvRow) :
    ((df.filter fun r => (qKey r).isSome).filterMap qKey) = df.filterMap qKey := by
  induction df with
  | nil => rfl
  | cons r t ih =>
    cases h : qKey r with
    | none => simp [List.filter_cons, List.filterMap_cons, h, ih]
    | some k => simp [List.filter_cons, List.filterMap_cons, h, ih]

theorem filter_qKey_filter (df : List ConvRow) (k : ℤ × ℕ) :
    ((df.filter fun r => (qKey r).isSome).filter fun r => decide (qKey r = some k)) =
      df.filter fun r => decide (qKey r = some k) := by
  induction df with
  | nil => rfl
  | cons r t ih =>
    cases h : qKey r with
    | none => simp [List.filter_cons, h, ih]
    | some k' => simp [List.filter_cons, h, ih]

/-- C5. Every grouped `Revenue_USD` sum — quarterly by `[ID, Date]`, monthly
by calendar month, and `sales_rev`'s per-`UserID` total — is invariant under
any permutation of the aggregator's input rows: groups with equal keys
computed from the two orderings carry equal sums. -/
theorem claim_C5 {l₁ l₂ : List ConvRow} (h : l₁.Perm l₂) :
    (∀ g₁ ∈ get_quarterly_rev l₁, ∀ g₂ ∈ get_quarterly_rev l₂,
      g₁.ID = g₂.ID → g₁.Date = g₂.Date → g₁.Revenue_USD = g₂.Revenue_USD) ∧
    (∀ m₁ ∈ get_total_monthly_revenue l₁, ∀ m₂ ∈ get_total_monthly_revenue l₂,
      m₁.Month = m₂.Month → m₁.Revenue_USD = m₂.Revenue_USD) ∧
    (∀ s₁ ∈ salesAgg l₁, ∀ s₂ ∈ salesAgg l₂,
      s₁.UserID = s₂.UserID → s₁.Revenue_USD = s₂.Revenue_USD) := by
  refine ⟨?_, ?_, ?_⟩
  · intro g₁ h₁ g₂ h₂ hid hdate
    rw [mem_get_quarterly_rev h₁, mem_get_quarterly_rev h₂, hid, hdate]
    exact sumRevUSD_perm (h.filter _)
  · intro m₁ h₁ m₂ h₂ hm
    rw [mem_get_total_monthly_revenue h₁, mem_get_total_monthly_revenue h₂, hm]
    exact sumRevUSD_perm (h.filter _)
  · intro s₁ h₁ s₂ h₂ hu
    rw [mem_salesAgg h₁, mem_salesAgg h₂, hu]
    exact sumRevUSD_perm (h.filter _)

/-- C6. In every aggregation step a missing `Revenue_USD` contributes
nothing: the column sum equals the sum of the non-missing values alone, a
table whose `Revenue_USD` values are all missing sums to `0` (not missing),
and each group of the quarterly, monthly and per-`UserID` aggregations
carries exactly the sum of its non-missing values. -/
theorem claim_C6 (df : List ConvRow) :
    sumRevUSD df = (df.filterMap fun r => r.Revenue_USD).sum ∧
    ((∀ r ∈ df, r.Revenue_USD = none) → sumRevUSD df = 0) ∧
    (∀ g ∈ get_quarterly_rev df,
      g.Revenue_USD = ((df.filter fun r => decide (qKey r = some (g.ID, g.Date))).filterMap
        fun r => r.Revenue_USD).sum) ∧
    (∀ m ∈ get_total_monthly_revenue df,
      m.Revenue_USD = ((df.filter fun r =>
        decide (to_period_M r.left.Date = m.Month)).filterMap
        fun r => r.Revenue_USD).sum) ∧
    (∀ s ∈ salesAgg df,
      s.Revenue_USD = ((df.filter fun r => decide (r.left.UserID = s.UserID)).filterMap
        fun r => r.Revenue_USD).sum) := by
  refine ⟨sumRevUSD_eq_filterMap df, ?_, ?_, ?_, ?_⟩
  · intro hall
    rw [sumRevUSD_eq_filterMap]
    have hnil : df.filterMap (fun r => r.Revenue_USD) = [] := by
      rw [List.filterMap_eq_nil_iff]
      exact hall
    rw [hnil]
    rfl
  · intro g hg
    rw [mem_get_quarterly_rev hg, sumRevUSD_eq_filterMap]
  · intro m hm
    rw [mem_get_total_monthly_revenue hm, sumRevUSD_eq_filterMap]
  · intro s hs
    rw [mem_salesAgg hs, sumRevUSD_eq_filterMap]

/-- C9. `get_quarterly_rev` silently excludes every row whose `['ID','Date']`
group key is missing: the quarterly output is unchanged when such rows are
removed first, a row whose team join failed has a missing key, and such a row
belongs to no group of the output. -/
theorem claim_C9 (df : List ConvRow) :
    get_quarterly_rev df = get_quarterly_rev (df.filter fun r => (qKey r).isSome) ∧
    (∀ r ∈ df, r.left.team = none → qKey r = none) ∧
    (∀ r ∈ df, qKey r = none → ∀ k : ℤ × ℕ,
      r ∉ df.filter fun x => decide (qKey x = some k)) := by
  refine ⟨?_, ?_, ?_⟩
  · unfold get_quarterly_rev
    rw [filterMap_qKey_filter]
    simp only [filter_qKey_filter]
  · intro r _ h
    simp [qKey, convID, h]
  · intro r _ h k hmem
    have hdec := (List.mem_filter.1 hmem).2
    rw [h] at hdec
    simp at hdec

/-- C10. `convert_currency` updates its caller's tables: the revenue table's
`Date` column is overwritten with parsed dates and its `Revenue` column with
floats, the rate table's `DATE` column with parsed dates, every other column
of both argument tables being unchanged, while the merged result is a
separate table; likewise `get_currency_code` writes exactly the `Currency`
column onto the caller's teams table, all other columns unchanged. -/
theorem claim_C10 (teams_df : List TeamRow) (revenue_df : List JoinedRow)
    (currency_df : List RateRow) (rev : List JoinedRowP) (rat : List RateRowP)
    (conv : List ConvRow)
    (h : convert_currency revenue_df currency_df = some (rev, rat, conv)) :
    List.Forall₂ (fun j jp => jp.UserID = j.rev.UserID ∧ jp.team = j.team ∧
      to_datetime j.rev.Date = some jp.Date ∧ jp.Revenue = astype_float j.rev.Revenue)
      revenue_df rev ∧
    List.Forall₂ (fun c cp => cp.FROM_CURRENCY = c.FROM_CURRENCY ∧
      to_datetime c.DATE = some cp.DATE ∧ cp.EXCHANGE_RATE = c.EXCHANGE_RATE)
      currency_df rat ∧
    conv = convertMerge rev rat ∧
    List.Forall₂ (fun t tc => tc.ID = t.ID ∧ tc.Name = t.Name ∧ tc.Email = t.Email ∧
      tc.Rep_Or_Director = t.Rep_Or_Director ∧ tc.Status = t.Status ∧
      tc.Region = t.Region ∧ tc.Team = t.Team ∧ tc.Country = t.Country ∧
      tc.Currency = currencyOfCountry t.Country) teams_df (get_currency_code teams_df) := by
  obtain ⟨hrev, hrat, hconv⟩ := convert_currency_eq_some h
  refine ⟨?_, ?_, hconv, ?_⟩
  · exact (parseAll_forall₂ hrev).imp fun _ _ hp => parseJoined_eq_some hp
  · exact (parseAll_forall₂ hrat).imp fun _ _ hp => parseRate_eq_some hp
  · induction teams_df with
    | nil => exact List.Forall₂.nil
    | cons t ts ih =>
      exact List.Forall₂.cons ⟨rfl, rfl, rfl, rfl, rfl, rfl, rfl, rfl, rfl⟩ ih

/-! Concrete tables instantiating the theorems: a US team, a Japan team, a
matched USD row, a matched JPY row, an unmatched row, and one JPY rate. -/

/-- Demo team: `ID 1`, country `US`. -/
def wTeam1 : TeamRow := ⟨1, "Ann", "ann", "Rep", "Active", "NA", "Alpha", "US"⟩

/-- Demo team: `ID 2`, country `Japan`. -/
def wTeam2 : TeamRow := ⟨2, "Bo", "bo", "Rep", "Active", "APAC", "Beta", "Japan"⟩

/-- The demo teams table with currencies attached. -/
def wTeamsC : List TeamRowC := get_currency_code [wTeam1, wTeam2]

/-- The first row of `wTeamsC`. -/
def wTC1 : TeamRowC := wTeamsC.getD 0 ⟨0, "", "", "", "", "", "", "", ""⟩

/-- Demo revenue row matching the US team. -/
def wr1 : RevRow := ⟨1, "2024-01-01", 100⟩

/-- Demo revenue row matching the Japan team. -/
def wr2 : RevRow := ⟨2, "2024-02-05", 200000⟩

/-- Demo revenue row matching no team. -/
def wr3 : RevRow := ⟨3, "2024-01-02", 5⟩

/-- Demo exchange-rate row: JPY on 2024-02-05. -/
def wRate : RateRow := ⟨"JPY", "2024-02-05", 337 / 50000⟩

/-- The demo revenue table joined to the demo teams. -/
def wJoined : List JoinedRow := get_team [wr1, wr2, wr3] wTeamsC

/-- The full result of running `convert_currency` on the demo tables. -/
def wTriple : List JoinedRowP × List RateRowP × List ConvRow :=
  (convert_currency wJoined [wRate]).getD ([], [], [])

/-- The updated demo revenue table returned by `convert_currency`. -/
def wRev : List JoinedRowP := wTriple.1

/-- The updated demo rate table returned by `convert_currency`. -/
def wRat : List RateRowP := wTriple.2.1

/-- The merged demo table returned by `convert_currency`. -/
def wConv : List ConvRow := wTriple.2.2

/-- The first merged demo row (the USD row). -/
def wOut1 : ConvRow := wConv.getD 0 ⟨⟨0, 0, 0, none⟩, none, none⟩

/-- The demo rate table parsed on its own. -/
def wRatP : List RateRowP := (parseAll parseRate [wRate]).getD []

/-- A converted demo row carrying `Revenue_USD` of 1000 in group (1, 20240101). -/
def wcr1 : ConvRow := ⟨⟨1, 20240101, 1000, some wTC1⟩, none, some 1000⟩

/-- A converted demo row carrying `Revenue_USD` of 1500 in group (1, 20240101). -/
def wcr2 : ConvRow := ⟨⟨1, 20240101, 1500, some wTC1⟩, none, some 1500⟩

/-- A converted demo row with no team match and a missing `Revenue_USD`. -/
def wcrNone : ConvRow := ⟨⟨9, 20240101, 7, none⟩, none, none⟩

/-- The quarterly group row computed from `[wcr1, wcr2]`. -/
def wg1 : QRow := (get_quarterly_rev [wcr1, wcr2]).getD 0 ⟨0, 0, none, none, none, 0⟩

/-- The quarterly group row computed from the reversed input `[wcr2, wcr1]`. -/
def wg2 : QRow := (get_quarterly_rev [wcr2, wcr1]).getD 0 ⟨0, 0, none, none, none, 0⟩

/-- Witness for C1: the demo USD row passes through unconverted. -/
theorem claim_C1_witness : wOut1.Revenue_USD = some wOut1.left.Revenue :=
  (claim_C1 wJoined [wRate] wRev wRat wConv rfl wOut1 (by decide)).1 (by decide)

/-- Witness for C2: the US demo team gets the tabulated code, and the
untabulated country `Atlantis` falls back to `EUR`. -/
theorem claim_C2_witness :
    wTC1.Currency = currencyOfCountry wTC1.Country ∧
      currencyOfCountry "Atlantis" = "EUR" :=
  ⟨(claim_C2 [wTeam1, wTeam2]).1 wTC1 (by decide),
    (claim_C2 [wTeam1, wTeam2]).2.2.2.2.2.2.2.2.2.2.2.2 "Atlantis" (by decide)⟩

/-- Witness for C3: on demo tables with unique matches the join keeps the row
count, and the unmatched demo row appears with a missing team side. -/
theorem claim_C3_witness :
    (get_team [wr1, wr3] wTeamsC).length = 2 ∧
      (⟨wr3, none⟩ : JoinedRow) ∈ get_team [wr1, wr3] wTeamsC :=
  ⟨(claim_C3 [wr1, wr3] wTeamsC).2.1.mpr (by decide),
    (claim_C3 [wr1, wr3] wTeamsC).2.2.2.2.2 wr3 (by decide) (by decide)⟩

/-- Witness for C4: the unmatched demo revenue row survives `get_team`, and
the first demo joined row survives `convert_currency`. -/
theorem claim_C4_witness :
    (∃ x ∈ get_team [wr3] wTeamsC, x.rev = wr3 ∧
      (x.team = none ↔ teamMatches wTeamsC wr3 = [])) ∧
    (∃ jp, parseJoined (wJoined.getD 0 ⟨wr1, none⟩) = some jp ∧ jp ∈ wRev ∧
      ∃ out ∈ wConv, out.left = jp ∧ (out.rate = none ↔ rateMatches wRat jp = [])) :=
  ⟨claim_C4.1 [wr3] wTeamsC wr3 (by decide),
    claim_C4.2 wJoined [wRate] wRev wRat wConv rfl (wJoined.getD 0 ⟨wr1, none⟩)
      (by decide)⟩

/-- Witness for C5: swapping the two demo rows of a quarterly group leaves
the group's sum unchanged. -/
theorem claim_C5_witness : wg1.Revenue_USD = wg2.Revenue_USD :=
  (claim_C5 (List.Perm.swap wcr2 wcr1 [])).1 wg1 (List.mem_cons_self _ _) wg2
    (List.mem_cons_self _ _) (by decide) (by decide)

/-- Witness for C6: a demo table whose `Revenue_USD` cells are all missing
sums to `0`, not to a missing value. -/
theorem claim_C6_witness : sumRevUSD [wcrNone, wcrNone] = 0 :=
  (claim_C6 [wcrNone, wcrNone]).2.1 (by decide)

/-- Witness for C7: exporting an empty table errors, while `convert_currency`
on an empty revenue table returns an empty merged table. -/
theorem claim_C7_witness :
    (∃ e, export_to_csv ([] : List ℕ) = Except.error e) ∧
      convert_currency [] [wRate] = some ([], wRatP, []) :=
  ⟨(claim_C7 ([] : List ℕ) wTeamsC [wRate] wRatP rfl).1.mpr rfl,
    (claim_C7 ([] : List ℕ) wTeamsC [wRate] wRatP rfl).2.2.2.1⟩

/-- Witness for C8: the demo revenue row with no team match comes out of
`convert_currency` with missing currency, rate and `Revenue_USD`. -/
theorem claim_C8_witness :
    ∃ out ∈ wConv, out.left.UserID = wr3.UserID ∧ out.left.team = none ∧
      rowCurrency out.left = none ∧ rowCurrency out.left ≠ some "USD" ∧
      rateMatches wRat out.left = [] ∧ out.rate = none ∧ out.Revenue_USD = none :=
  claim_C8 [wr1, wr2, wr3] wTeamsC [wRate] wRev wRat wConv rfl wr3 (by decide)
    (by decide)

/-- Witness for C9: dropping the missing-key demo row first leaves the
quarterly output unchanged, and that row's group key is indeed missing. -/
theorem claim_C9_witness :
    get_quarterly_rev [wcr1, wcrNone] =
      get_quarterly_rev ([wcr1, wcrNone].filter fun r => (qKey r).isSome) ∧
      qKey wcrNone = none :=
  ⟨(claim_C9 [wcr1, wcrNone]).1,
    (claim_C9 [wcr1, wcrNone]).2.1 wcrNone (by decide) (by decide)⟩

/-- Witness for C10: on the demo tables, the updated revenue table differs
from the argument only in the parsed `Date` and cast `Revenue`, and the
merged table is a separate value. -/
theorem claim_C10_witness :
    List.Forall₂ (fun j jp => jp.UserID = j.rev.UserID ∧ jp.team = j.team ∧
      to_datetime j.rev.Date = some jp.Date ∧ jp.Revenue = astype_float j.rev.Revenue)
      wJoined wRev ∧
      wConv = convertMerge wRev wRat :=
  ⟨(claim_C10 [wTeam1, wTeam2] wJoined [wRate] wRev wRat wConv rfl).1,
    (claim_C10 [wTeam1, wTeam2] wJoined [wRate] wRev wRat wConv rfl).2.2.1⟩

end RevenueAnalysis
